import Mathlib

/-!
Shallow embedding of the PlayLoop Studios tic-tac-toe core: the match
controller (board evaluation and move handling), the Firebase-backed room
repository (create / join / leave / update / subscribe), the room code
generator, the lobby-to-game transition latch, and the minimax AI move
chooser.  All definitions are transcribed from the TypeScript source;
definitions whose name ends in `Spec` transcribe the natural-language
specification instead and are compared with the source-derived ones.
-/

namespace PlayLoop

/-- The player symbols, TS type `PlayerSymbol = 'X' | 'O'`. -/
inductive PlayerSymbol where
  | X
  | O
deriving DecidableEq, Repr

/-- A board cell, TS type `CellValue = PlayerSymbol | null`; `none` is `null`. -/
abbrev CellValue := Option PlayerSymbol

/-- The board, a JS array of 9 cells (row-major 0..8). -/
abbrev Board := List CellValue

/-- A terminal result value, TS `PlayerSymbol | 'draw'`. -/
inductive Winner where
  | sym (s : PlayerSymbol)
  | draw
deriving DecidableEq, Repr

/-- TS `GameStatus = 'WAITING' | 'PLAYING' | 'FINISHED' | 'DRAW'` (types.ts). -/
inductive GameStatus where
  | WAITING
  | PLAYING
  | FINISHED
  | DRAW
deriving DecidableEq, Repr

/-- TS `GameMode = 'SINGLE' | 'LOCAL' | 'ONLINE'`. -/
inductive GameMode where
  | SINGLE
  | LOCAL
  | ONLINE
deriving DecidableEq, Repr

/-- TS `Difficulty = 'EASY' | 'MEDIUM' | 'HARD'`. -/
inductive Difficulty where
  | EASY
  | MEDIUM
  | HARD
deriving DecidableEq, Repr

/-- `WINNING_COMBINATIONS` from constants.ts: 3 rows, 3 columns, 2 diagonals,
in source order. -/
def WINNING_COMBINATIONS : List (Nat × Nat × Nat) :=
  [(0, 1, 2), (3, 4, 5), (6, 7, 8),
   (0, 3, 6), (1, 4, 7), (2, 5, 8),
   (0, 4, 8), (2, 4, 6)]

/-- `EMPTY_BOARD` from constants.ts: `Array(9).fill(null)`. -/
def EMPTY_BOARD : Board := List.replicate 9 none

/-- JS `board[i]` collapsed to a cell value: both a missing slot (undefined)
and a null slot read as `none`; a marked slot reads as `some s`.  This models
the truthiness and equality tests the source applies to `board[a]`. -/
def boardGet (b : Board) (i : Nat) : CellValue := (b[i]?).join

/-- The body of the winning-combination loop shared by `checkGameStatus`
(App.tsx) and `checkWinner` (ai.ts): for one combination `[a, b, c]`,
`board[a] && board[a] === board[b] && board[a] === board[c]` yields the
symbol at `a`, otherwise nothing. -/
def comboWin (b : Board) (c : Nat × Nat × Nat) : Option PlayerSymbol :=
  match boardGet b c.1 with
  | some s =>
      if boardGet b c.2.1 = some s ∧ boardGet b c.2.2 = some s then some s else none
  | none => none

/-- Result record returned by `checkGameStatus`: `{ winner, line }`. -/
structure StatusResult where
  winner : Winner
  line : Option (Nat × Nat × Nat)
deriving DecidableEq, Repr

/-- `checkGameStatus` from App.tsx: scan the 8 combinations in order and
return the first winner with its line; with no winner, a board containing no
`null` is a draw (line `null`); otherwise the game is not over (`null`). -/
def checkGameStatus (b : Board) : Option StatusResult :=
  match WINNING_COMBINATIONS.findSome?
      (fun c => (comboWin b c).map (fun s => StatusResult.mk (.sym s) (some c))) with
  | some r => some r
  | none => if (none : CellValue) ∈ b then none else some ⟨.draw, none⟩

/-- `checkWinner` from ai.ts: same scan, returning only the terminal value. -/
def checkWinner (b : Board) : Option Winner :=
  match WINNING_COMBINATIONS.findSome? (comboWin b) with
  | some s => some (.sym s)
  | none => if (none : CellValue) ∈ b then none else some .draw

/-- Transcribed from the spec sentence: the first of the 8 fixed
combinations whose three cells hold the same non-empty symbol, paired with
that symbol.  Written from the specification wording, for comparison with
the source-derived `checkGameStatus`. -/
def specFirstWin (b : Board) : Option (PlayerSymbol × (Nat × Nat × Nat)) :=
  WINNING_COMBINATIONS.findSome? (fun c =>
    match boardGet b c.1, boardGet b c.2.1, boardGet b c.2.2 with
    | some s1, some s2, some s3 => if s1 = s2 ∧ s2 = s3 then some (s1, c) else none
    | _, _, _ => none)

/-- Transcribed from the spec sentence: the first matching combination makes
its symbol the winner with that line; with no match, all 9 cells occupied is
a draw; otherwise the match is still in progress. -/
def checkGameStatusSpec (b : Board) : Option StatusResult :=
  match specFirstWin b with
  | some (s, c) => some ⟨.sym s, some c⟩
  | none =>
      if b.countP (fun cell => cell.isSome) = 9 then some ⟨.draw, none⟩ else none

/-- The client-local match state owned by the controller in App.tsx. -/
structure LocalMatchState where
  board : Board
  currentTurn : PlayerSymbol
  winner : Option Winner
  winningLine : Option (Nat × Nat × Nat)
deriving DecidableEq, Repr

/-- The payload `handleMove` pushes through `updateGameState` in online
mode: the new board, the next turn, and the terminal value if any. -/
structure PushPayload where
  board : Board
  nextTurn : PlayerSymbol
  winner : Option Winner
deriving DecidableEq, Repr

/-- What one `handleMove` call does: the local state afterwards and the
remote write it issued, if any. -/
structure MoveOutcome where
  state : LocalMatchState
  push : Option PushPayload
deriving DecidableEq, Repr

/-- `handleMove` from App.tsx.  Guards in source order: occupied cell or
existing winner; online turn mismatch; online opponent disconnected.  An
accepted move places the mover and evaluates `checkGameStatus`; in online
mode only the Firebase push is issued (the source comment reads: for online
mode, ONLY update Firebase and let the listener update local state); in the
other modes local state is updated directly, flipping the turn only when the
game is not over. -/
def handleMove (mode : GameMode) (mySymbol : Option PlayerSymbol)
    (opponentConnected : Bool) (s : LocalMatchState) (index : Nat) : MoveOutcome :=
  if (boardGet s.board index).isSome ∨ s.winner.isSome then ⟨s, none⟩
  else if mode = .ONLINE ∧ some s.currentTurn ≠ mySymbol then ⟨s, none⟩
  else if mode = .ONLINE ∧ opponentConnected = false then ⟨s, none⟩
  else
    let newBoard := s.board.set index (some s.currentTurn)
    let result := checkGameStatus newBoard
    let nextTurn : PlayerSymbol := if s.currentTurn = .X then .O else .X
    if mode = .ONLINE then
      ⟨s, some ⟨newBoard, nextTurn, result.map (·.winner)⟩⟩
    else
      match result with
      | some r => ⟨{ s with board := newBoard, winner := some r.winner, winningLine := r.line }, none⟩
      | none => ⟨{ s with board := newBoard, currentTurn := nextTurn }, none⟩

/-! ## Room repository (services/firebase.ts) -/

/-- One player slot of a room document: `{ name, symbol, joined }`. -/
structure PlayerSlot where
  name : String
  symbol : PlayerSymbol
  joined : Bool
deriving DecidableEq, Repr

/-- The `RoomData` document stored under `rooms/{code}` (types.ts); the two
player slots of the nested `players` object are inlined as two fields. -/
structure RoomData where
  status : GameStatus
  player1 : PlayerSlot
  player2 : PlayerSlot
  board : Board
  currentTurn : PlayerSymbol
  winner : Option Winner
  lastMoveTimestamp : Nat
deriving DecidableEq, Repr

/-- The shared document store restricted to the `rooms/` subtree: a map from
room code to the room document, `none` for an absent room. -/
def Store := String → Option RoomData

/-- A whole-document write at `rooms/{code}` (Firebase `set(roomRef, ...)`). -/
def storeSet (store : Store) (code : String) (r : RoomData) : Store :=
  fun c => if c = code then some r else store c

/-- A store with no rooms, used to instantiate theorems. -/
def emptyStore : Store := fun _ => none

/-- The `initialData` document built by `createRoom`. `Date.now()` is passed
in as `now`. -/
def initialRoomData (playerName : String) (now : Nat) : RoomData :=
  { status := .WAITING,
    player1 := { name := playerName, symbol := .X, joined := true },
    player2 := { name := "", symbol := .O, joined := false },
    board := EMPTY_BOARD,
    currentTurn := .X,
    winner := none,
    lastMoveTimestamp := now }

/-- The store effect of `createRoom` once the code has been generated: an
unconditional `set` of the initial document at `rooms/{code}`, with no
existence check, so any room already stored under the same code is replaced. -/
def createRoom (store : Store) (code : String) (playerName : String) (now : Nat) : Store :=
  storeSet store code (initialRoomData playerName now)

/-- `joinRoom` from services/firebase.ts: read `rooms/{code}`; a missing room
or a room whose `player2.joined` is already true yields `false` with the
store untouched; otherwise one multi-path update writes `players/player2`
and `status`, and the call yields `true`. -/
def joinRoom (store : Store) (code : String) (playerName : String) : Bool × Store :=
  match store code with
  | none => (false, store)
  | some data =>
      if data.player2.joined then (false, store)
      else
        (true, storeSet store code
          { data with
            player2 := { name := playerName, symbol := .O, joined := true },
            status := .PLAYING })

/-- The multi-path update performed by `updateGameState` on the room
document: always `board`, `currentTurn` and `lastMoveTimestamp` (passed in
as `now` for `Date.now()`); `winner` and `status = FINISHED` only under the
truthiness guard `if (winner)`. -/
def updateGameStateDoc (r : RoomData) (board : Board) (nextTurn : PlayerSymbol)
    (winner : Option Winner) (now : Nat) : RoomData :=
  let r1 := { r with board := board, currentTurn := nextTurn, lastMoveTimestamp := now }
  if winner.isSome then { r1 with winner := winner, status := .FINISHED } else r1

/-- `updateGameState` lifted to the store: the multi-path update rewrites the
fields of the existing document at `rooms/{code}`; other codes are untouched.
(The claims considered here only exercise it on rooms that exist.) -/
def updateGameStateStore (store : Store) (code : String) (board : Board)
    (nextTurn : PlayerSymbol) (winner : Option Winner) (now : Nat) : Store :=
  fun c => if c = code then (store c).map (updateGameStateDoc · board nextTurn winner now)
           else store c

/-- The single-path update performed by `leaveRoom` on the room document:
`players/{player1 or player2}/joined = false`, nothing else. -/
def leaveRoomDoc (r : RoomData) (isPlayer1 : Bool) : RoomData :=
  if isPlayer1 then { r with player1 := { r.player1 with joined := false } }
  else { r with player2 := { r.player2 with joined := false } }

/-- `leaveRoom` lifted to the store, as for `updateGameStateStore`. -/
def leaveRoomStore (store : Store) (code : String) (isPlayer1 : Bool) : Store :=
  fun c => if c = code then (store c).map (leaveRoomDoc · isPlayer1) else store c

/-- The error thrown by the repository when the module-level `db` handle
failed to initialize: `throw new Error("Database not initialized")`. -/
inductive StorageError where
  | storageUnavailable
deriving DecidableEq, Repr

/-- `createRoom` with its `if (!db) throw` guard (firebase.ts line 31). -/
def createRoomOp (dbInit : Bool) (store : Store) (code : String)
    (playerName : String) (now : Nat) : Except StorageError Store :=
  if dbInit then .ok (createRoom store code playerName now)
  else .error .storageUnavailable

/-- `joinRoom` with its `if (!db) throw` guard (firebase.ts line 57). -/
def joinRoomOp (dbInit : Bool) (store : Store) (code : String)
    (playerName : String) : Except StorageError (Bool × Store) :=
  if dbInit then .ok (joinRoom store code playerName)
  else .error .storageUnavailable

/-- `updateGameState` with its guard: `if (!db) return;` (firebase.ts line
90) returns silently with no write, it does not throw. -/
def updateGameStateOp (dbInit : Bool) (store : Store) (code : String)
    (board : Board) (nextTurn : PlayerSymbol) (winner : Option Winner)
    (now : Nat) : Except StorageError Store :=
  if dbInit then .ok (updateGameStateStore store code board nextTurn winner now)
  else .ok store

/-- `leaveRoom` with its guard: `if (!db) return;` silently does nothing. -/
def leaveRoomOp (dbInit : Bool) (store : Store) (code : String)
    (isPlayer1 : Bool) : Except StorageError Store :=
  if dbInit then .ok (leaveRoomStore store code isPlayer1)
  else .ok store

/-- What `subscribeToRoom` hands back: a live listener attachment, or the
inert unsubscribe closure it returns immediately when `db` is missing. -/
inductive SubscribeOutcome where
  | attached
  | inertUnsubscribe
deriving DecidableEq, Repr

/-- The `if (!db) return () => {};` guard of `subscribeToRoom`. -/
def subscribeToRoomOp (dbInit : Bool) : SubscribeOutcome :=
  if dbInit then .attached else .inertUnsubscribe

/-! ## Room code generation (services/firebase.ts) -/

/-- The 32-character alphabet of `generateRoomCode`. -/
def ROOM_CODE_CHARS : List Char := "ABCDEFGHJKLMNPQRSTUVWXYZ23456789".toList

/-- JS `chars.charAt(i)`: a one-character string in range, the empty string
out of range. -/
def charAt (s : List Char) (i : Nat) : List Char :=
  match s[i]? with
  | some c => [c]
  | none => []

/-- `generateRoomCode`: four iterations of `code += chars.charAt(draw)`.
`draws i` stands for the i-th `Math.floor(Math.random() * chars.length)`,
which always lies in `0 .. 31`. -/
def generateRoomCode (draws : Nat → Nat) : List Char :=
  (List.range 4).foldl (fun code i => code ++ charAt ROOM_CODE_CHARS (draws i)) []

/-! ## Lobby-to-game transition latch (App.tsx subscription callback) -/

/-- One delivery of a snapshot to the subscription callback, restricted to
the transition latch: given the current value of `hasTransitionedToGameRef`
and the snapshot fact `players.player2.joined`, return the new flag value
and whether the one-shot transition signal was scheduled.  The source sets
the flag to true before issuing the signal. -/
def latchStep (hasTransitioned : Bool) (p2joined : Bool) : Bool × Bool :=
  if hasTransitioned = false ∧ p2joined = true then (true, true)
  else (hasTransitioned, false)

/-- Run the latch over a whole stream of snapshots (each reduced to its
`player2.joined` bit), counting how many times the transition signal fired. -/
def runLatch (flag : Bool) (fired : Nat) : List Bool → Bool × Nat
  | [] => (flag, fired)
  | j :: rest =>
      let step := latchStep flag j
      runLatch step.1 (fired + (if step.2 then 1 else 0)) rest

/-! ## AI move selection (services/ai.ts) -/

/-- Number of empty (null) cells, the measure for minimax termination. -/
def countNone (b : Board) : Nat := b.countP (fun c => c.isNone)

theorem countNone_set_lt (b : Board) (i : Nat) (s : PlayerSymbol)
    (h : b[i]? = some none) : countNone (b.set i (some s)) < countNone b := by
  induction b generalizing i with
  | nil => simp at h
  | cons hd tl ih =>
    cases i with
    | zero =>
      simp only [List.getElem?_cons_zero, Option.some.injEq] at h
      subst h
      simp [countNone, List.countP_cons]
    | succ j =>
      simp only [List.getElem?_cons_succ] at h
      have := ih j h
      simp only [countNone, List.set_cons_succ, List.countP_cons] at *
      omega

/-- `minimax` from ai.ts, written functionally: the JS version marks cell
`i`, recurses, then unmarks it, which on an immutable board is `b.set i`.
The JS `Infinity` / `-Infinity` seeds are modeled by integer sentinels
outside the reachable score range `-10 .. 10`; whenever the non-terminal
branch runs the board has an empty cell, so the fold always absorbs at
least one real score and the seed never survives. -/
def minimax (b : Board) (depth : Nat) (isMax : Bool) : Int :=
  match checkWinner b with
  | some (Winner.sym PlayerSymbol.O) => 10 - (depth : Int)
  | some (Winner.sym PlayerSymbol.X) => (depth : Int) - 10
  | some Winner.draw => 0
  | none =>
    if isMax then
      (((List.range 9).filter (fun i => decide (b[i]? = some none))).attach.map
        (fun x => minimax (b.set x.1 (some .O)) (depth + 1) false)).foldl max (-1000000)
    else
      (((List.range 9).filter (fun i => decide (b[i]? = some none))).attach.map
        (fun x => minimax (b.set x.1 (some .X)) (depth + 1) true)).foldl min 1000000
termination_by countNone b
decreasing_by
  all_goals
    obtain ⟨i, hi⟩ := x
    simp only [List.mem_filter, List.mem_range] at hi
    exact countNone_set_lt b i _ (of_decide_eq_true hi.2)

/-- `availableMoves` in `getBestMove`: the indices of the null cells, in
order (JS `board.map((val, idx) => val === null ? idx : null).filter(...)`). -/
def availableMovesOf (b : Board) : List Nat :=
  (List.range b.length).filter (fun i => decide (b[i]? = some none))

/-- The body of the HARD-mode loop of `getBestMove`: on a null cell, score
the move with minimax for O and keep it when the score strictly beats the
best so far; the accumulator carries `(bestScore, move)`. -/
def hardStep (b : Board) (acc : Int × Int) (i : Nat) : Int × Int :=
  if b[i]? = some none then
    let score := minimax (b.set i (some .O)) 0 false
    if acc.1 < score then (score, (i : Int)) else acc
  else acc

/-- `getBestMove` from ai.ts.  `rand n` stands for
`Math.floor(Math.random() * n)`, which lies in `0 .. n-1` whenever `n > 0`;
the `-1` fallbacks of the two lookups are unreachable under that bound and
stand in for the JS undefined of an out-of-range index. -/
def getBestMove (b : Board) (difficulty : Difficulty) (rand : Nat → Nat) : Int :=
  let availableMoves := availableMovesOf b
  if availableMoves.length = 0 then -1
  else if difficulty = .EASY then
    match availableMoves[rand availableMoves.length]? with
    | some m => (m : Int)
    | none => -1
  else if difficulty = .MEDIUM then
    match availableMoves.find?
        (fun m => decide (checkWinner (b.set m (some .O)) = some (.sym .O))) with
    | some m => (m : Int)
    | none =>
      match availableMoves.find?
          (fun m => decide (checkWinner (b.set m (some .X)) = some (.sym .X))) with
      | some m => (m : Int)
      | none =>
        match availableMoves[rand availableMoves.length]? with
        | some m => (m : Int)
        | none => -1
  else
    if 8 ≤ availableMoves.length ∧ b[4]? = some none then 4
    else
      let result := (List.range 9).foldl (hardStep b) (-1000000, -1)
      if result.2 ≠ -1 then result.2
      else
        match availableMoves with
        | m :: _ => (m : Int)
        | [] => -1

/-! ## Helper lemmas -/

theorem findSome?_map_comm {α β γ : Type} (f : α → Option β) (g : β → γ) :
    ∀ l : List α, l.findSome? (fun a => (f a).map g) = (l.findSome? f).map g := by
  intro l
  induction l with
  | nil => simp
  | cons a l ih =>
    rw [List.findSome?_cons, List.findSome?_cons]
    cases h : f a <;> simp [h, ih]

theorem comboWin_spec_eq (b : Board) (c : Nat × Nat × Nat) :
    (comboWin b c).map (fun s => StatusResult.mk (.sym s) (some c)) =
      ((match boardGet b c.1, boardGet b c.2.1, boardGet b c.2.2 with
        | some s1, some s2, some s3 => if s1 = s2 ∧ s2 = s3 then some (s1, c) else none
        | _, _, _ => none : Option (PlayerSymbol × (Nat × Nat × Nat)))).map
        (fun p => StatusResult.mk (.sym p.1) (some p.2)) := by
  unfold comboWin
  rcases h1 : boardGet b c.1 with _ | s1
  · simp [h1]
  · rcases h2 : boardGet b c.2.1 with _ | s2
    · simp [h1, h2]
    · rcases h3 : boardGet b c.2.2 with _ | s3
      · simp [h1, h2, h3]
      · simp only [h1, h2, h3, Option.some.injEq]
        by_cases he : s2 = s1 ∧ s3 = s1
        · obtain ⟨e2, e3⟩ := he
          subst e2
          subst e3
          simp
        · rw [if_neg he, if_neg (fun hc : s1 = s2 ∧ s2 = s3 =>
            he ⟨hc.1.symm, hc.2.symm.trans hc.1.symm⟩)]
          simp

theorem contains_none_iff (b : Board) (hb : b.length = 9) :
    ((none : CellValue) ∈ b ↔ ¬ b.countP (fun cell => cell.isSome) = 9) := by
  rw [← hb, List.countP_eq_length]
  constructor
  · intro hmem hall
    have := hall none hmem
    simp at this
  · intro hnall
    by_contra hmem
    exact hnall (fun a ha => by
      cases a with
      | none => exact absurd ha hmem
      | some s => rfl)

theorem checkGameStatus_eq_spec (b : Board) (hb : b.length = 9) :
    checkGameStatus b = checkGameStatusSpec b := by
  unfold checkGameStatus checkGameStatusSpec specFirstWin
  have hmap := findSome?_map_comm
    (fun c => (match boardGet b c.1, boardGet b c.2.1, boardGet b c.2.2 with
      | some s1, some s2, some s3 => if s1 = s2 ∧ s2 = s3 then some (s1, c) else none
      | _, _, _ => none : Option (PlayerSymbol × (Nat × Nat × Nat))))
    (fun p : PlayerSymbol × (Nat × Nat × Nat) => StatusResult.mk (.sym p.1) (some p.2))
    WINNING_COMBINATIONS
  have hfun : (fun c => (comboWin b c).map (fun s => StatusResult.mk (.sym s) (some c))) =
      (fun c => ((match boardGet b c.1, boardGet b c.2.1, boardGet b c.2.2 with
        | some s1, some s2, some s3 => if s1 = s2 ∧ s2 = s3 then some (s1, c) else none
        | _, _, _ => none : Option (PlayerSymbol × (Nat × Nat × Nat)))).map
        (fun p => StatusResult.mk (.sym p.1) (some p.2))) :=
    funext (comboWin_spec_eq b)
  rw [hfun, hmap]
  cases hfs : WINNING_COMBINATIONS.findSome?
      (fun c => (match boardGet b c.1, boardGet b c.2.1, boardGet b c.2.2 with
        | some s1, some s2, some s3 => if s1 = s2 ∧ s2 = s3 then some (s1, c) else none
        | _, _, _ => none : Option (PlayerSymbol × (Nat × Nat × Nat)))) with
  | some p =>
    obtain ⟨ps, pc⟩ := p
    simp
  | none =>
    simp only [Option.map_none']
    by_cases hmem : (none : CellValue) ∈ b
    · rw [if_pos hmem, if_neg ((contains_none_iff b hb).mp hmem)]
    · rw [if_neg hmem, if_pos (by
        by_contra hc
        exact hmem ((contains_none_iff b hb).mpr hc))]

/-! ## Claim theorems -/

/-- C1: placing the current mover in an empty cell of a 9-cell board (any
offline mode) evaluates the terminal condition exactly as the spec states
it: the 8 fixed combinations are scanned in order and the first with three
equal non-empty cells wins with that line; with no match a fully occupied
board is a draw; otherwise the match continues and the mover alternates
X to O and O to X. -/
theorem claim1_move_evaluation (mode : GameMode) (my : Option PlayerSymbol)
    (conn : Bool) (s : LocalMatchState) (i : Nat) (hmode : mode ≠ .ONLINE)
    (hlen : s.board.length = 9) (hcell : s.board[i]? = some none)
    (hwin : s.winner = none) :
    handleMove mode my conn s i =
      { state :=
          match checkGameStatusSpec (s.board.set i (some s.currentTurn)) with
          | some r =>
              { s with board := s.board.set i (some s.currentTurn),
                       winner := some r.winner, winningLine := r.line }
          | none =>
              { s with board := s.board.set i (some s.currentTurn),
                       currentTurn := if s.currentTurn = .X then .O else .X },
        push := none } := by
  have hb : boardGet s.board i = none := by simp [boardGet, hcell]
  have hlen2 : (s.board.set i (some s.currentTurn)).length = 9 := by
    simpa using hlen
  have hspec := checkGameStatus_eq_spec _ hlen2
  cases mode with
  | ONLINE => exact absurd rfl hmode
  | SINGLE =>
    simp only [handleMove, hb, hwin, Option.isSome_none, Bool.false_eq_true,
      or_self, if_false, reduceCtorEq, false_and, hspec]
    cases checkGameStatusSpec (s.board.set i (some s.currentTurn)) <;> rfl
  | LOCAL =>
    simp only [handleMove, hb, hwin, Option.isSome_none, Bool.false_eq_true,
      or_self, if_false, reduceCtorEq, false_and, hspec]
    cases checkGameStatusSpec (s.board.set i (some s.currentTurn)) <;> rfl

/-- C1 witness: the first move of a local game at cell 0. -/
theorem claim1_move_evaluation_witness :
    (GameMode.LOCAL ≠ GameMode.ONLINE ∧
      (LocalMatchState.mk EMPTY_BOARD .X none none).board.length = 9 ∧
      (LocalMatchState.mk EMPTY_BOARD .X none none).board[0]? = some none ∧
      (LocalMatchState.mk EMPTY_BOARD .X none none).winner = none) ∧
    handleMove .LOCAL none false (LocalMatchState.mk EMPTY_BOARD .X none none) 0 =
      { state :=
          match checkGameStatusSpec (EMPTY_BOARD.set 0 (some .X)) with
          | some r =>
              { LocalMatchState.mk EMPTY_BOARD .X none none with
                  board := EMPTY_BOARD.set 0 (some .X),
                  winner := some r.winner, winningLine := r.line }
          | none =>
              { LocalMatchState.mk EMPTY_BOARD .X none none with
                  board := EMPTY_BOARD.set 0 (some .X),
                  currentTurn := if PlayerSymbol.X = .X then .O else .X },
        push := none } :=
  ⟨⟨by decide, by decide, by decide, rfl⟩,
    claim1_move_evaluation .LOCAL none false _ 0 (by decide) (by decide) (by decide) rfl⟩

/-- C2: `handleMove` rejects, leaving the local state untouched and pushing
nothing, when the target cell is occupied, or the match already has a
winner, or, online only, it is not this client's turn or the opponent is
disconnected. -/
theorem claim2_move_rejection (mode : GameMode) (my : Option PlayerSymbol)
    (conn : Bool) (s : LocalMatchState) (i : Nat)
    (h : (boardGet s.board i).isSome = true ∨ s.winner.isSome = true ∨
      (mode = .ONLINE ∧ (some s.currentTurn ≠ my ∨ conn = false))) :
    handleMove mode my conn s i = ⟨s, none⟩ := by
  unfold handleMove
  split_ifs with g1 g2 g3 g4 <;> first
    | rfl
    | (exfalso; tauto)

/-- C3: `joinRoom` yields `false` with the store completely untouched when
the room is missing or `player2.joined` is already true; on success it
yields `true` and performs the single multi-path update that rewrites
`player2` and `status` of that room and nothing else. -/
theorem claim3_joinRoom_contract (store : Store) (code playerName : String) :
    (store code = none → joinRoom store code playerName = (false, store)) ∧
    (∀ r, store code = some r → r.player2.joined = true →
      joinRoom store code playerName = (false, store)) ∧
    (∀ r, store code = some r → r.player2.joined = false →
      joinRoom store code playerName =
        (true, storeSet store code
          { r with
            player2 := { name := playerName, symbol := .O, joined := true },
            status := .PLAYING })) := by
  refine ⟨?_, ?_, ?_⟩
  · intro h
    simp [joinRoom, h]
  · intro r h hj
    simp [joinRoom, h, hj]
  · intro r h hj
    simp [joinRoom, h, hj]

/-- C3 witness: joining a fresh waiting room succeeds and writes exactly
`player2` and `status`. -/
theorem claim3_joinRoom_contract_witness :
    (storeSet emptyStore "AAAA" (initialRoomData "Alice" 0)) "AAAA" =
        some (initialRoomData "Alice" 0) ∧
    (initialRoomData "Alice" 0).player2.joined = false ∧
    joinRoom (storeSet emptyStore "AAAA" (initialRoomData "Alice" 0)) "AAAA" "Bob" =
      (true, storeSet (storeSet emptyStore "AAAA" (initialRoomData "Alice" 0)) "AAAA"
        { initialRoomData "Alice" 0 with
          player2 := { name := "Bob", symbol := .O, joined := true },
          status := .PLAYING }) :=
  ⟨by decide, rfl,
    (claim3_joinRoom_contract (storeSet emptyStore "AAAA" (initialRoomData "Alice" 0))
      "AAAA" "Bob").2.2 (initialRoomData "Alice" 0) (by decide) rfl⟩

/-- C4 counterexample: the first online move of X at cell 0 is accepted (a
push is issued) yet `handleMove` leaves the local match state exactly as it
was, cell 0 locally still empty — the claimed optimistic local application
does not happen. -/
theorem claim4_counterexample :
    (handleMove .ONLINE (some .X) true
        (LocalMatchState.mk EMPTY_BOARD .X none none) 0).push.isSome = true ∧
    (handleMove .ONLINE (some .X) true
        (LocalMatchState.mk EMPTY_BOARD .X none none) 0).state =
      LocalMatchState.mk EMPTY_BOARD .X none none ∧
    (handleMove .ONLINE (some .X) true
        (LocalMatchState.mk EMPTY_BOARD .X none none) 0).state.board[0]? =
      some none := by
  refine ⟨rfl, rfl, rfl⟩

/-- C4 as amended: in online mode an accepted move only pushes the new
board, next turn and terminal value through `updateGameState`; the local
match state is not modified by `handleMove` and is updated only when the
subscription delivers the next snapshot. -/
theorem claim4_online_push_only (my : Option PlayerSymbol) (conn : Bool)
    (s : LocalMatchState) (i : Nat)
    (hcell : (boardGet s.board i).isSome = false) (hwin : s.winner = none)
    (hturn : some s.currentTurn = my) (hconn : conn = true) :
    handleMove .ONLINE my conn s i =
      ⟨s, some ⟨s.board.set i (some s.currentTurn),
        (if s.currentTurn = .X then .O else .X),
        (checkGameStatus (s.board.set i (some s.currentTurn))).map (·.winner)⟩⟩ := by
  subst hconn
  subst hturn
  simp [handleMove, hcell, hwin]

/-- C4 witness: the amended statement at the first online move of X. -/
theorem claim4_online_push_only_witness :
    ((boardGet EMPTY_BOARD 0).isSome = false ∧
      (some PlayerSymbol.X = some PlayerSymbol.X) ∧ (true = true)) ∧
    handleMove .ONLINE (some .X) true (LocalMatchState.mk EMPTY_BOARD .X none none) 0 =
      ⟨LocalMatchState.mk EMPTY_BOARD .X none none,
        some ⟨EMPTY_BOARD.set 0 (some .X),
          (if PlayerSymbol.X = .X then .O else .X),
          (checkGameStatus (EMPTY_BOARD.set 0 (some .X))).map (·.winner)⟩⟩ :=
  ⟨⟨by decide, rfl, rfl⟩,
    claim4_online_push_only (some .X) true
      (LocalMatchState.mk EMPTY_BOARD .X none none) 0 (by decide) rfl rfl rfl⟩

/-- C5 counterexample: with the store handle uninitialized,
`updateGameState` does not throw `StorageUnavailable`; it returns silently
with no write at all (source guard: `if (!db) return;`). -/
theorem claim5_counterexample :
    updateGameStateOp false emptyStore "AAAA" EMPTY_BOARD .X none 0 =
      .ok emptyStore ∧
    updateGameStateOp false emptyStore "AAAA" EMPTY_BOARD .X none 0 ≠
      .error .storageUnavailable :=
  ⟨rfl, fun h => Except.noConfusion h⟩

/-- C5 as amended: with the store handle uninitialized, room creation and
join throw `StorageUnavailable`, while `updateGameState` and `leaveRoom`
degrade to silent no-ops and `subscribeToRoom` returns an inert
unsubscribe capability. -/
theorem claim5_unavailable_split (store : Store) (code playerName : String)
    (now : Nat) (board : Board) (nextTurn : PlayerSymbol)
    (winner : Option Winner) (isPlayer1 : Bool) :
    createRoomOp false store code playerName now = .error .storageUnavailable ∧
    joinRoomOp false store code playerName = .error .storageUnavailable ∧
    updateGameStateOp false store code board nextTurn winner now = .ok store ∧
    leaveRoomOp false store code isPlayer1 = .ok store ∧
    subscribeToRoomOp false = .inertUnsubscribe :=
  ⟨rfl, rfl, rfl, rfl, rfl⟩

theorem runLatch_latched (snaps : List Bool) :
    ∀ fired : Nat, runLatch true fired snaps = (true, fired) := by
  induction snaps with
  | nil => intro fired; rfl
  | cons j rest ih =>
    intro fired
    simp [runLatch, latchStep, ih]

theorem runLatch_count (snaps : List Bool) :
    ∀ fired : Nat,
      (runLatch false fired snaps).2 = fired + (if true ∈ snaps then 1 else 0) := by
  induction snaps with
  | nil => intro fired; simp [runLatch]
  | cons j rest ih =>
    intro fired
    cases j with
    | true => simp [runLatch, latchStep, runLatch_latched]
    | false => simp [runLatch, latchStep, ih]

/-- C6: across any stream of snapshots delivered to one room subscription,
the lobby-to-game transition signal fires at most once, and exactly once as
soon as any snapshot reports `player2.joined` — further snapshots carrying
the same fact cannot re-fire it, because the flag is latched. -/
theorem claim6_transition_latch (snaps : List Bool) :
    (runLatch false 0 snaps).2 ≤ 1 ∧
    ((runLatch false 0 snaps).2 = 1 ↔ true ∈ snaps) := by
  have h := runLatch_count snaps 0
  rw [h]
  by_cases hm : true ∈ snaps <;> simp [hm]

/-- C7: `updateGameState` always writes the board, the next turn and the
fresh timestamp; it writes the winner and flips status to FINISHED exactly
when the winner argument is non-null; both player slots are untouched, and
so are winner and status when the argument is null — hence the invariant
that a non-null winner implies FINISHED status is preserved. -/
theorem claim7_updateGameState_frame (r : RoomData) (board : Board)
    (nextTurn : PlayerSymbol) (winner : Option Winner) (now : Nat) :
    (updateGameStateDoc r board nextTurn winner now).board = board ∧
    (updateGameStateDoc r board nextTurn winner now).currentTurn = nextTurn ∧
    (updateGameStateDoc r board nextTurn winner now).lastMoveTimestamp = now ∧
    (updateGameStateDoc r board nextTurn winner now).player1 = r.player1 ∧
    (updateGameStateDoc r board nextTurn winner now).player2 = r.player2 ∧
    (winner ≠ none →
      (updateGameStateDoc r board nextTurn winner now).winner = winner ∧
      (updateGameStateDoc r board nextTurn winner now).status = .FINISHED) ∧
    (winner = none →
      (updateGameStateDoc r board nextTurn winner now).winner = r.winner ∧
      (updateGameStateDoc r board nextTurn winner now).status = r.status) ∧
    ((r.winner ≠ none → r.status = .FINISHED) →
      (updateGameStateDoc r board nextTurn winner now).winner ≠ none →
      (updateGameStateDoc r board nextTurn winner now).status = .FINISHED) := by
  cases winner with
  | none => simp [updateGameStateDoc]
  | some w => simp [updateGameStateDoc]

/-- C7 witness: recording a win writes the winner and finishes the room. -/
theorem claim7_updateGameState_frame_witness :
    (some (Winner.sym .X) ≠ (none : Option Winner)) ∧
    (updateGameStateDoc (initialRoomData "Alice" 0) EMPTY_BOARD .O
        (some (.sym .X)) 5).winner = some (.sym .X) ∧
    (updateGameStateDoc (initialRoomData "Alice" 0) EMPTY_BOARD .O
        (some (.sym .X)) 5).status = .FINISHED := by
  have h := claim7_updateGameState_frame (initialRoomData "Alice" 0) EMPTY_BOARD
    .O (some (.sym .X)) 5
  exact ⟨by decide, (h.2.2.2.2.2.1 (by decide)).1, (h.2.2.2.2.2.1 (by decide)).2⟩

/-- C9: `leaveRoom` flips exactly the designated player's joined flag to
false, leaving the other slot and every other room field unchanged, and
doing it twice equals doing it once. -/
theorem claim9_leaveRoom_frame (r : RoomData) (isPlayer1 : Bool) :
    ((leaveRoomDoc r true).player1.joined = false ∧
      (leaveRoomDoc r true).player1.name = r.player1.name ∧
      (leaveRoomDoc r true).player1.symbol = r.player1.symbol ∧
      (leaveRoomDoc r true).player2 = r.player2 ∧
      (leaveRoomDoc r true).board = r.board ∧
      (leaveRoomDoc r true).currentTurn = r.currentTurn ∧
      (leaveRoomDoc r true).status = r.status ∧
      (leaveRoomDoc r true).winner = r.winner ∧
      (leaveRoomDoc r true).lastMoveTimestamp = r.lastMoveTimestamp) ∧
    ((leaveRoomDoc r false).player2.joined = false ∧
      (leaveRoomDoc r false).player2.name = r.player2.name ∧
      (leaveRoomDoc r false).player2.symbol = r.player2.symbol ∧
      (leaveRoomDoc r false).player1 = r.player1 ∧
      (leaveRoomDoc r false).board = r.board ∧
      (leaveRoomDoc r false).currentTurn = r.currentTurn ∧
      (leaveRoomDoc r false).status = r.status ∧
      (leaveRoomDoc r false).winner = r.winner ∧
      (leaveRoomDoc r false).lastMoveTimestamp = r.lastMoveTimestamp) ∧
    leaveRoomDoc (leaveRoomDoc r isPlayer1) isPlayer1 = leaveRoomDoc r isPlayer1 := by
  refine ⟨?_, ?_, ?_⟩
  · simp [leaveRoomDoc]
  · simp [leaveRoomDoc]
  · cases isPlayer1 <;> simp [leaveRoomDoc]

theorem mem_of_getElem? {α : Type} {l : List α} {i : Nat} {a : α}
    (h : l[i]? = some a) : a ∈ l := by
  induction l generalizing i with
  | nil => simp at h
  | cons hd tl ih =>
    cases i with
    | zero =>
      simp only [List.getElem?_cons_zero, Option.some.injEq] at h
      exact h ▸ List.mem_cons_self hd tl
    | succ j =>
      simp only [List.getElem?_cons_succ] at h
      exact List.mem_cons_of_mem _ (ih h)

/-- C8: with each of the four random draws in range (as
`Math.floor(Math.random() * 32)` always is), the generated code has length
exactly 4; each character comes from the 32-symbol alphabet, position `i`
being determined by draw `i` alone through the injective (`Nodup`)
enumeration of the alphabet — the uniform independent draws therefore give
uniform independent characters; and `createRoom` writes its initial
document unconditionally, silently replacing any room already stored under
the same code. -/
theorem claim8_room_code (draws : Nat → Nat) (h : ∀ i, i < 4 → draws i < 32) :
    (generateRoomCode draws).length = 4 ∧
    (∀ c ∈ generateRoomCode draws, c ∈ ROOM_CODE_CHARS) ∧
    (∀ i, (hi : i < 4) → (generateRoomCode draws)[i]? = ROOM_CODE_CHARS[draws i]?) ∧
    ROOM_CODE_CHARS.length = 32 ∧
    ROOM_CODE_CHARS.Nodup ∧
    (∀ (store : Store) (code playerName : String) (now : Nat),
      createRoom store code playerName now code = some (initialRoomData playerName now)) := by
  have hlen : ROOM_CODE_CHARS.length = 32 := by decide
  have hb : ∀ i, i < 4 → draws i < ROOM_CODE_CHARS.length := by
    intro i hi
    rw [hlen]
    exact h i hi
  obtain ⟨c0, e0⟩ : ∃ c, ROOM_CODE_CHARS[draws 0]? = some c :=
    ⟨_, List.getElem?_eq_getElem (hb 0 (by omega))⟩
  obtain ⟨c1, e1⟩ : ∃ c, ROOM_CODE_CHARS[draws 1]? = some c :=
    ⟨_, List.getElem?_eq_getElem (hb 1 (by omega))⟩
  obtain ⟨c2, e2⟩ : ∃ c, ROOM_CODE_CHARS[draws 2]? = some c :=
    ⟨_, List.getElem?_eq_getElem (hb 2 (by omega))⟩
  obtain ⟨c3, e3⟩ : ∃ c, ROOM_CODE_CHARS[draws 3]? = some c :=
    ⟨_, List.getElem?_eq_getElem (hb 3 (by omega))⟩
  have hrange : List.range 4 = [0, 1, 2, 3] := by decide
  have hgen : generateRoomCode draws = [c0, c1, c2, c3] := by
    simp [generateRoomCode, hrange, charAt, e0, e1, e2, e3]
  refine ⟨by simp [hgen], ?_, ?_, hlen, by decide, ?_⟩
  · intro c hc
    rw [hgen] at hc
    simp only [List.mem_cons, List.not_mem_nil, or_false] at hc
    rcases hc with rfl | rfl | rfl | rfl
    · exact mem_of_getElem? e0
    · exact mem_of_getElem? e1
    · exact mem_of_getElem? e2
    · exact mem_of_getElem? e3
  · intro i hi
    interval_cases i <;> simp [hgen, e0, e1, e2, e3]
  · intro store code playerName now
    simp [createRoom, storeSet]

/-- C8 witness: the identity draw sequence 0,1,2,3 is in range and yields a
4-character code over the alphabet. -/
theorem claim8_room_code_witness :
    (∀ i, i < 4 → (fun i => i) i < 32) ∧
    (generateRoomCode (fun i => i)).length = 4 ∧
    (∀ c ∈ generateRoomCode (fun i => i), c ∈ ROOM_CODE_CHARS) :=
  ⟨fun i hi => Nat.lt_of_lt_of_le hi (by norm_num),
    (claim8_room_code (fun i => i)
      (fun i hi => Nat.lt_of_lt_of_le hi (by norm_num))).1,
    (claim8_room_code (fun i => i)
      (fun i hi => Nat.lt_of_lt_of_le hi (by norm_num))).2.1⟩

theorem mem_availableMoves (b : Board) (m : Nat) :
    m ∈ availableMovesOf b ↔ m < b.length ∧ b[m]? = some none := by
  unfold availableMovesOf
  rw [List.mem_filter, List.mem_range]
  constructor
  · intro ⟨h1, h2⟩
    exact ⟨h1, of_decide_eq_true h2⟩
  · intro ⟨h1, h2⟩
    exact ⟨h1, decide_eq_true h2⟩

theorem none_mem_iff_availableMoves (b : Board) :
    (none : CellValue) ∈ b ↔ availableMovesOf b ≠ [] := by
  constructor
  · intro hmem
    obtain ⟨i, hi⟩ := List.mem_iff_getElem?.mp hmem
    have hlt : i < b.length := by
      by_contra hge
      rw [List.getElem?_eq_none (Nat.le_of_not_lt hge)] at hi
      cases hi
    intro hnil
    have : i ∈ availableMovesOf b := (mem_availableMoves b i).mpr ⟨hlt, hi⟩
    rw [hnil] at this
    cases this
  · intro hne
    cases hA : availableMovesOf b with
    | nil => exact absurd hA hne
    | cons m rest =>
      have hm : m ∈ availableMovesOf b := by
        rw [hA]
        exact List.mem_cons_self m rest
      exact mem_of_getElem? ((mem_availableMoves b m).mp hm).2

theorem hardFold_invariant (b : Board) (l : List Nat) :
    ∀ acc : Int × Int,
      (acc.2 = -1 ∨ ∃ j : Nat, acc.2 = (j : Int) ∧ j < 9 ∧ b[j]? = some none) →
      (∀ i ∈ l, i < 9) →
      ((l.foldl (hardStep b) acc).2 = -1 ∨
        ∃ j : Nat, (l.foldl (hardStep b) acc).2 = (j : Int) ∧ j < 9 ∧
          b[j]? = some none) := by
  induction l with
  | nil =>
    intro acc hacc _
    exact hacc
  | cons i rest ih =>
    intro acc hacc hl
    rw [List.foldl_cons]
    refine ih _ ?_ (fun j hj => hl j (List.mem_cons_of_mem _ hj))
    simp only [hardStep]
    split_ifs with h1 h2
    · exact Or.inr ⟨i, rfl, hl i (List.mem_cons_self _ _), h1⟩
    · exact hacc
    · exact hacc

/-- C10: on any 9-cell board, with the random draw in range as
`Math.floor(Math.random() * n)` always is, `getBestMove` returns -1 exactly
when the board has no empty cell, and otherwise an index in 0..8 whose cell
is empty — so the AI move fed back through `handleMove` never names an
occupied cell or an out-of-range index. -/
theorem claim10_getBestMove_valid (b : Board) (d : Difficulty)
    (rand : Nat → Nat) (hlen : b.length = 9)
    (hrand : ∀ n, 0 < n → rand n < n) :
    ((none : CellValue) ∉ b → getBestMove b d rand = -1) ∧
    ((none : CellValue) ∈ b →
      ∃ i : Nat, i < 9 ∧ b[i]? = some none ∧ getBestMove b d rand = (i : Int)) := by
  constructor
  · intro hno
    have havail : availableMovesOf b = [] := by
      by_contra hne
      exact hno ((none_mem_iff_availableMoves b).mpr hne)
    simp [getBestMove, havail]
  · intro hyes
    have havail : availableMovesOf b ≠ [] :=
      (none_mem_iff_availableMoves b).mp hyes
    have hlen0 : ¬ (availableMovesOf b).length = 0 := by
      intro h0
      exact havail (List.length_eq_zero.mp h0)
    have hpos : 0 < (availableMovesOf b).length := Nat.pos_of_ne_zero hlen0
    have hvalid : ∀ m, m ∈ availableMovesOf b →
        m < 9 ∧ b[m]? = some none := by
      intro m hm
      have := (mem_availableMoves b m).mp hm
      exact ⟨hlen ▸ this.1, this.2⟩
    have hr := hrand _ hpos
    have hget : (availableMovesOf b)[rand (availableMovesOf b).length]? =
        some ((availableMovesOf b).get ⟨rand (availableMovesOf b).length, hr⟩) :=
      List.getElem?_eq_getElem hr
    have hgetmem := hvalid _ (List.get_mem (availableMovesOf b) _ hr)
    cases d with
    | EASY =>
      refine ⟨_, hgetmem.1, hgetmem.2, ?_⟩
      simp only [getBestMove]
      rw [if_neg hlen0]
      simp [hget]
    | MEDIUM =>
      simp only [getBestMove]
      rw [if_neg hlen0]
      cases hf1 : (availableMovesOf b).find?
          (fun m => decide (checkWinner (b.set m (some .O)) = some (.sym .O))) with
      | some m =>
        have hm := hvalid m (List.mem_of_find?_eq_some hf1)
        refine ⟨m, hm.1, hm.2, ?_⟩
        simp [hf1]
      | none =>
        cases hf2 : (availableMovesOf b).find?
            (fun m => decide (checkWinner (b.set m (some .X)) = some (.sym .X))) with
        | some m =>
          have hm := hvalid m (List.mem_of_find?_eq_some hf2)
          refine ⟨m, hm.1, hm.2, ?_⟩
          simp [hf1, hf2]
        | none =>
          refine ⟨_, hgetmem.1, hgetmem.2, ?_⟩
          simp [hf1, hf2, hget]
    | HARD =>
      simp only [getBestMove]
      rw [if_neg hlen0]
      by_cases hc : 8 ≤ (availableMovesOf b).length ∧ b[4]? = some none
      · refine ⟨4, by omega, hc.2, ?_⟩
        simp [hc]
      · have hinv := hardFold_invariant b (List.range 9) (-1000000, -1)
          (Or.inl rfl) (fun i hi => List.mem_range.mp hi)
        by_cases hF : ((List.range 9).foldl (hardStep b) (-1000000, -1)).2 ≠ -1
        · rcases hinv with hinv | ⟨j, hj1, hj2, hj3⟩
          · exact absurd hinv hF
          · refine ⟨j, hj2, hj3, ?_⟩
            simp [hc, hF, hj1]
        · have hF2 : ((List.range 9).foldl (hardStep b) (-1000000, -1)).2 = -1 :=
            not_not.mp hF
          cases hA : availableMovesOf b with
          | nil => exact absurd hA havail
          | cons m rest =>
            have hm : m ∈ availableMovesOf b := by
              rw [hA]
              exact List.mem_cons_self m rest
            have hc2 : ¬ (8 ≤ (m :: rest).length ∧ b[4]? = some none) := by
              rw [← hA]
              exact hc
            refine ⟨m, (hvalid m hm).1, (hvalid m hm).2, ?_⟩
            simp only [List.length_cons] at hc2
            simp [hF2]
            intro h7 h4
            exact absurd ⟨by omega, h4⟩ hc2

/-- C10 witness: on the empty board every difficulty proposes a legal cell;
shown for HARD, whose first move takes the free center. -/
theorem claim10_getBestMove_valid_witness :
    (EMPTY_BOARD.length = 9 ∧ (none : CellValue) ∈ EMPTY_BOARD) ∧
    (∃ i : Nat, i < 9 ∧ EMPTY_BOARD[i]? = some none ∧
      getBestMove EMPTY_BOARD .HARD (fun _ => 0) = (i : Int)) :=
  ⟨⟨by decide, by decide⟩,
    (claim10_getBestMove_valid EMPTY_BOARD .HARD (fun _ => 0) (by decide)
      (fun n hn => hn)).2 (by decide)⟩

/-- C2 witness: a move onto the already occupied cell 0 is rejected. -/
theorem claim2_move_rejection_witness :
    ((boardGet (EMPTY_BOARD.set 0 (some PlayerSymbol.X)) 0).isSome = true ∨
      (Option.none (α := Winner)).isSome = true ∨
      (GameMode.LOCAL = .ONLINE ∧ (some PlayerSymbol.O ≠ none ∨ false = false))) ∧
    handleMove .LOCAL none false
        (LocalMatchState.mk (EMPTY_BOARD.set 0 (some .X)) .O none none) 0 =
      ⟨LocalMatchState.mk (EMPTY_BOARD.set 0 (some .X)) .O none none, none⟩ :=
  ⟨Or.inl (by decide),
    claim2_move_rejection .LOCAL none false _ 0 (Or.inl (by decide))⟩

end PlayLoop
